import Mathlib

/-
Verification development for the papyrus repository (peer-to-peer networking
core of a StarkNet full node).  The Rust sources are shallowly embedded:
pure functions become Lean functions, stateful components become explicit
state passing, machine integers become Nat, fallible code returns Option or
Except (with Option.none standing for a Rust panic), and the asynchronous
loops are modelled as step functions over explicit event lists.
-/

set_option maxRecDepth 4000

/-! starknet_api: core.rs -/

namespace StarknetApi

/-- A StarkNet field element is a number below the Stark prime; here we model
StarkHash by the numeric value it carries. -/
abbrev StarkHash := Nat

/-- Error type of the starknet_api crate (only the variant used by
PatriciaKey.new appears in the embedded code). -/
inductive StarknetApiError where
  | OutOfRange (string : String)
deriving DecidableEq

/-- The source constant PATRICIA_KEY_UPPER_BOUND, a hex string. -/
def PATRICIA_KEY_UPPER_BOUND : String :=
  "0x800000000000000000000000000000000000000000000000000000000000000"

/-- Value of one hexadecimal digit character. -/
def hexDigitVal (c : Char) : Option Nat :=
  if ('0' ≤ c ∧ c ≤ '9') then some (c.toNat - 48)
  else if ('a' ≤ c ∧ c ≤ 'f') then some (c.toNat - 87)
  else if ('A' ≤ c ∧ c ≤ 'F') then some (c.toNat - 55)
  else none

/-- Accumulating parse of a list of hexadecimal digit characters. -/
def parseHexDigits : Nat → List Char → Option Nat
  | acc, [] => some acc
  | acc, c :: cs =>
    match hexDigitVal c with
    | none => none
    | some v => parseHexDigits (acc * 16 + v) cs

/-- Parse a 0x-prefixed hexadecimal string to its numeric value. -/
def hexStringToNat (s : String) : Option Nat :=
  match s.data with
  | '0' :: 'x' :: rest => if rest.isEmpty then none else parseHexDigits 0 rest
  | _ => none

/-- StarkHash.from_hex applied to the well-formed constant
PATRICIA_KEY_UPPER_BOUND: on this fixed valid input the source's from_hex
returns Ok of the parsed value, so the question-mark propagation in
PatriciaKey.new never fires. -/
def patriciaUpperBoundVal : Nat :=
  (hexStringToNat PATRICIA_KEY_UPPER_BOUND).getD 0

/-- A key in a StarkNet Patricia tree (wraps a StarkHash). -/
structure PatriciaKey where
  key : StarkHash
deriving DecidableEq

/-- PatriciaKey.new from core.rs: reject hashes at or above the Patricia key
upper bound with OutOfRange, otherwise wrap the hash. -/
def PatriciaKey.new (hash : StarkHash) : Except StarknetApiError PatriciaKey :=
  if hash ≥ patriciaUpperBoundVal then
    Except.error (StarknetApiError.OutOfRange
      ("[0x0, " ++ PATRICIA_KEY_UPPER_BOUND ++ ")"))
  else
    Except.ok ⟨hash⟩

/-- The address of a StarkNet contract (wraps a PatriciaKey). -/
structure ContractAddress where
  contract_address : PatriciaKey
deriving DecidableEq

/-- ContractAddress.try_from from core.rs: build the address from
PatriciaKey.new, propagating its error. -/
def ContractAddress.try_from (hash : StarkHash) :
    Except StarknetApiError ContractAddress :=
  (PatriciaKey.new hash).map (fun k => ⟨k⟩)

/-- The hex constant parses to 2 to the power 251. -/
theorem patriciaUpperBoundVal_eq : patriciaUpperBoundVal = 2 ^ 251 := by
  decide

/-- C10: PatriciaKey.new(hash) returns Err(OutOfRange) if and only if
hash is at least 2 to the power 251 (the value of PATRICIA_KEY_UPPER_BOUND),
and otherwise returns Ok of a key wrapping exactly the given hash;
ContractAddress.try_from(hash) succeeds under the same condition. -/
theorem patricia_key_new_range (hash : StarkHash) :
    ((∃ s, PatriciaKey.new hash = Except.error (StarknetApiError.OutOfRange s))
        ↔ 2 ^ 251 ≤ hash)
    ∧ (hash < 2 ^ 251 →
        PatriciaKey.new hash = Except.ok ⟨hash⟩
        ∧ ContractAddress.try_from hash = Except.ok ⟨⟨hash⟩⟩)
    ∧ ((ContractAddress.try_from hash).isOk = true ↔ hash < 2 ^ 251) := by
  unfold ContractAddress.try_from PatriciaKey.new
  rw [patriciaUpperBoundVal_eq]
  by_cases h : 2 ^ 251 ≤ hash
  · rw [if_pos h]
    refine ⟨⟨fun _ => h, fun _ => ⟨_, rfl⟩⟩,
      fun hlt => absurd h (not_le.mpr hlt), ?_, ?_⟩
    · intro hb; simp [Except.map, Except.isOk, Except.toBool] at hb
    · intro hlt; exact absurd h (not_le.mpr hlt)
  · rw [if_neg h]
    refine ⟨⟨fun hs => ?_, fun hge => absurd hge h⟩, fun _ => ⟨rfl, rfl⟩, ?_, ?_⟩
    · obtain ⟨s, hs⟩ := hs; simp at hs
    · intro _; exact Nat.not_le.mp h
    · intro _; simp [Except.map, Except.isOk, Except.toBool]

/-- Witness for C10 at the boundary inputs 5 and 2 to the power 251. -/
theorem patricia_key_new_range_witness :
    PatriciaKey.new 5 = Except.ok ⟨5⟩
    ∧ (ContractAddress.try_from (2 ^ 251)).isOk = false := by
  refine ⟨((patricia_key_new_range 5).2.1 (by norm_num)).1, ?_⟩
  have h := (patricia_key_new_range (2 ^ 251)).2.2
  have h2 : ¬ ((2:Nat) ^ 251 < 2 ^ 251) := lt_irrefl _
  cases hb : (ContractAddress.try_from (2 ^ 251)).isOk with
  | false => rfl
  | true => exact absurd (h.mp hb) h2

end StarknetApi

/-! papyrus_network: get_blocks/behaviour.rs -/

namespace GetBlocks

/-- Peers are identified by an opaque stable id; modelled as Nat. -/
abbrev PeerId := Nat

/-- Ids of sessions opened by the remote peer. -/
structure InboundSessionId where
  value : Nat
deriving DecidableEq

/-- Error returned by send_data on an unknown inbound session id. -/
inductive SessionIdNotFoundError where
  | mk
deriving DecidableEq

/-- Events the behaviour pushes onto its pending_events queue towards the
swarm: a dial request (built with the Disconnected peer condition) or a
NewQueryEvent notification handed to a connection handler. -/
inductive ToSwarmEvent (Query : Type) where
  | dial (peer_id : PeerId)
  | notifyHandler (peer_id : PeerId) (query : Query) (outbound_session_id : Nat)
deriving DecidableEq

/-- Swarm lifecycle events delivered to Behaviour.on_swarm_event. Only the
variants the embedded code distinguishes are listed; everything that is not
ConnectionEstablished falls into the catch-all arm of the source match. -/
inductive FromSwarm where
  | connectionEstablished (peer_id : PeerId)
  | connectionClosed (peer_id : PeerId)
  | dialFailure (peer_id : PeerId)
deriving DecidableEq

/-- State of the get_blocks Behaviour.  pending_queries embeds the
DefaultHashMap from peers to vectors of (query, outbound session id) pairs:
a total map into Option, where none means the key is absent. -/
structure Behaviour (Query : Type) where
  pending_events : List (ToSwarmEvent Query)
  pending_queries : PeerId → Option (List (Query × Nat))
  connected_peers : List PeerId
  next_outbound_session_id : Nat

/-- Behaviour.send_query_to_handler: push a NotifyHandler event carrying the
NewQueryEvent onto the pending events queue. -/
def Behaviour.send_query_to_handler {Query : Type} (b : Behaviour Query)
    (peer_id : PeerId) (query : Query) (outbound_session_id : Nat) :
    Behaviour Query :=
  { b with pending_events :=
      b.pending_events
        ++ [ToSwarmEvent.notifyHandler peer_id query outbound_session_id] }

/-- DefaultHashMap.get_mut followed by push: append the pair to the entry of
peer_id, creating the entry from the default empty vector when absent. -/
def pushPending {Query : Type} (m : PeerId → Option (List (Query × Nat)))
    (peer_id : PeerId) (item : Query × Nat) :
    PeerId → Option (List (Query × Nat)) :=
  fun q => if q = peer_id then some ((m peer_id).getD [] ++ [item]) else m q

/-- Behaviour.send_query: allocate the next outbound session id; if the peer
is connected notify its handler at once, otherwise push a dial request and
record the pair in the per-peer pending queries entry. -/
def Behaviour.send_query {Query : Type} (b : Behaviour Query) (query : Query)
    (peer_id : PeerId) : Behaviour Query × Nat :=
  let outbound_session_id := b.next_outbound_session_id
  let b1 := { b with next_outbound_session_id := b.next_outbound_session_id + 1 }
  if b1.connected_peers.contains peer_id then
    (b1.send_query_to_handler peer_id query outbound_session_id,
      outbound_session_id)
  else
    let b2 := { b1 with
      pending_events := b1.pending_events ++ [ToSwarmEvent.dial peer_id] }
    let b3 := { b2 with
      pending_queries := pushPending b2.pending_queries peer_id
        (query, outbound_session_id) }
    (b3, outbound_session_id)

/-- Behaviour.send_data is an unimplemented stub in the source; it panics on
every call, which the embedding renders as none. -/
def Behaviour.send_data {Query Data : Type} (_b : Behaviour Query) (_data : Data)
    (_inbound_session_id : InboundSessionId) :
    Option (Behaviour Query × Except SessionIdNotFoundError Unit) :=
  none

/-- Behaviour.on_swarm_event: on ConnectionEstablished, remove the pending
queries entry of the peer and notify the handler for each recorded pair in
order; every other swarm event reaches an unimplemented todo arm, which the
embedding renders as none (a panic). -/
def Behaviour.on_swarm_event {Query : Type} (b : Behaviour Query)
    (event : FromSwarm) : Option (Behaviour Query) :=
  match event with
  | FromSwarm.connectionEstablished peer_id =>
    match b.pending_queries peer_id with
    | none => some b
    | some queries =>
      let b1 := { b with
        pending_queries := fun q => if q = peer_id then none else b.pending_queries q }
      some (queries.foldl
        (fun acc qi => acc.send_query_to_handler peer_id qi.1 qi.2) b1)
  | _ => none

/-- Repeated send_query calls for the same peer, returning the final state. -/
def sendQueries {Query : Type} (b : Behaviour Query) (peer_id : PeerId) :
    List Query → Behaviour Query
  | [] => b
  | q :: qs => sendQueries (b.send_query q peer_id).1 peer_id qs

/-- The (query, session id) pairs produced when queries are numbered
consecutively starting from n. -/
def enumFrom {Query : Type} (n : Nat) : List Query → List (Query × Nat)
  | [] => []
  | q :: qs => (q, n) :: enumFrom (n + 1) qs

/-- Folding send_query_to_handler over a list of pairs appends one
NotifyHandler event per pair, in order. -/
theorem foldl_notify_pending_events {Query : Type} (p : PeerId)
    (qs : List (Query × Nat)) : ∀ acc : Behaviour Query,
    (qs.foldl (fun a qi => a.send_query_to_handler p qi.1 qi.2) acc).pending_events
      = acc.pending_events
        ++ qs.map (fun qi => ToSwarmEvent.notifyHandler p qi.1 qi.2) := by
  induction qs with
  | nil => intro acc; simp
  | cons q qs ih =>
    intro acc
    simp only [List.foldl_cons, List.map_cons]
    rw [ih]
    simp [Behaviour.send_query_to_handler]

/-- Folding send_query_to_handler leaves the pending queries map unchanged. -/
theorem foldl_notify_pending_queries {Query : Type} (p : PeerId)
    (qs : List (Query × Nat)) : ∀ acc : Behaviour Query,
    (qs.foldl (fun a qi => a.send_query_to_handler p qi.1 qi.2) acc).pending_queries
      = acc.pending_queries := by
  induction qs with
  | nil => intro acc; rfl
  | cons q qs ih =>
    intro acc
    simp only [List.foldl_cons]
    rw [ih]
    rfl

/-- One send_query call towards a peer that is not in the connected set:
the id is allocated, a dial request is queued and the pair is appended to
the pending entry of the peer. -/
theorem send_query_disconnected {Query : Type} (b : Behaviour Query)
    (q : Query) (p : PeerId) (hp : b.connected_peers.contains p = false) :
    (b.send_query q p).1
      = { pending_events := b.pending_events ++ [ToSwarmEvent.dial p],
          pending_queries :=
            pushPending b.pending_queries p (q, b.next_outbound_session_id),
          connected_peers := b.connected_peers,
          next_outbound_session_id := b.next_outbound_session_id + 1 }
    ∧ (b.send_query q p).2 = b.next_outbound_session_id := by
  have hmem : p ∉ b.connected_peers := by simpa using hp
  constructor <;> simp [Behaviour.send_query, hmem]

/-- Sending one or more queries to a disconnected peer keeps the connected
set unchanged and appends the consecutively numbered (query, id) pairs to
the pending entry of that peer. -/
theorem sendQueries_cons_spec {Query : Type} (p : PeerId) (qs : List Query) :
    ∀ (q : Query) (b : Behaviour Query),
    b.connected_peers.contains p = false →
    (sendQueries b p (q :: qs)).connected_peers = b.connected_peers
    ∧ (sendQueries b p (q :: qs)).pending_queries p
        = some ((b.pending_queries p).getD []
            ++ enumFrom b.next_outbound_session_id (q :: qs)) := by
  induction qs with
  | nil =>
    intro q b hp
    obtain ⟨h1, _⟩ := send_query_disconnected b q p hp
    constructor
    · show (b.send_query q p).1.connected_peers = b.connected_peers
      rw [h1]
    · show (b.send_query q p).1.pending_queries p = _
      rw [h1]
      simp [pushPending, enumFrom]
  | cons q2 qs ih =>
    intro q b hp
    obtain ⟨h1, _⟩ := send_query_disconnected b q p hp
    have hstep : sendQueries b p (q :: q2 :: qs)
        = sendQueries (b.send_query q p).1 p (q2 :: qs) := rfl
    have hp2 : (b.send_query q p).1.connected_peers.contains p = false := by
      rw [h1]; exact hp
    obtain ⟨ihc, ihq⟩ := ih q2 (b.send_query q p).1 hp2
    rw [hstep]
    constructor
    · rw [ihc, h1]
    · rw [ihq, h1]
      simp [pushPending, enumFrom]

/-- C2: if send_query(q, p) is called one or more times while peer p is not
in the connected set, each (query, session id) pair is appended to the
per-peer pending-queries entry, and when ConnectionEstablished(p) later
arrives the router emits exactly one NewQueryEvent handler notification per
pending session, in the FIFO order the queries were enqueued, and removes
the pending entry for p. -/
theorem send_query_pending_drain {Query : Type} (b : Behaviour Query)
    (p : PeerId) (q : Query) (qs : List Query)
    (hp : b.connected_peers.contains p = false)
    (h0 : b.pending_queries p = none) :
    (sendQueries b p (q :: qs)).pending_queries p
      = some (enumFrom b.next_outbound_session_id (q :: qs))
    ∧ ∃ b2,
      (sendQueries b p (q :: qs)).on_swarm_event
          (FromSwarm.connectionEstablished p) = some b2
      ∧ b2.pending_events
          = (sendQueries b p (q :: qs)).pending_events
            ++ (enumFrom b.next_outbound_session_id (q :: qs)).map
                (fun qi => ToSwarmEvent.notifyHandler p qi.1 qi.2)
      ∧ b2.pending_queries p = none := by
  obtain ⟨_, hpend⟩ := sendQueries_cons_spec p qs q b hp
  rw [h0] at hpend
  simp only [Option.getD_none, List.nil_append] at hpend
  refine ⟨hpend, ?_⟩
  simp only [Behaviour.on_swarm_event, hpend]
  refine ⟨_, rfl, ?_, ?_⟩
  · rw [foldl_notify_pending_events]
  · rw [foldl_notify_pending_queries]
    simp

/-- Witness for C2: two queries 10 and 20 sent to disconnected peer 7 from a
fresh behaviour. -/
theorem send_query_pending_drain_witness :
    (sendQueries
        ({ pending_events := [], pending_queries := fun _ => none,
           connected_peers := [], next_outbound_session_id := 0 } :
          Behaviour Nat) 7 [10, 20]).pending_queries 7
      = some (enumFrom 0 [10, 20])
    ∧ ∃ b2,
      (sendQueries
          ({ pending_events := [], pending_queries := fun _ => none,
             connected_peers := [], next_outbound_session_id := 0 } :
            Behaviour Nat) 7 [10, 20]).on_swarm_event
          (FromSwarm.connectionEstablished 7) = some b2
      ∧ b2.pending_events
          = (sendQueries
              ({ pending_events := [], pending_queries := fun _ => none,
                 connected_peers := [], next_outbound_session_id := 0 } :
                Behaviour Nat) 7 [10, 20]).pending_events
            ++ (enumFrom 0 [10, 20]).map
                (fun qi => ToSwarmEvent.notifyHandler 7 qi.1 qi.2)
      ∧ b2.pending_queries 7 = none :=
  send_query_pending_drain _ 7 10 [20] rfl rfl

/-- C4 (code behaviour at the failing input): a DialFailure swarm event
reaches the todo arm of on_swarm_event and panics for every behaviour state;
no PeerNotConnected event is emitted for the pending sessions of the peer. -/
theorem on_swarm_event_dial_failure_panics (b : Behaviour Nat) (p : PeerId) :
    b.on_swarm_event (FromSwarm.dialFailure p) = none := rfl

/-- C5 (code behaviour at the failing input): send_data is an unimplemented
stub that panics on every call, connected or not, known session id or not. -/
theorem send_data_always_panics (b : Behaviour Nat) (d : Nat)
    (sid : InboundSessionId) : b.send_data d sid = none := rfl

end GetBlocks

/-! papyrus_network: network_manager/test.rs, MockDBExecutor -/

namespace DbExec

/-- A block locator inside a query: start from a hash or from a number. -/
inductive BlockHashOrNumber where
  | hash (h : Nat)
  | number (n : Nat)
deriving DecidableEq

/-- Query direction. -/
inductive Direction where
  | forward
  | backward
deriving DecidableEq

/-- A query for a range of block headers. -/
structure BlockQuery where
  start_block : BlockHashOrNumber
  direction : Direction
  limit : Nat
  step : Nat
deriving DecidableEq

/-- A block header; only the block number distinguishes headers in the
embedded code, the remaining fields are defaulted and never inspected. -/
structure BlockHeader where
  block_number : Nat
deriving DecidableEq

/-- Errors of the DB executor.  BlockNotFound carries the locator of the
missing block and the id of the offending query. -/
inductive DBExecutorError where
  | blockNotFound (block_hash_or_number : BlockHashOrNumber) (query_id : Nat)
deriving DecidableEq

/-- The query id an error is tagged with. -/
def DBExecutorError.queryIdTag : DBExecutorError → Nat
  | DBExecutorError.blockNotFound _ q => q

/-- A data item streamed into the per-query sink. -/
inductive Data where
  | blockHeaderAndSignature (header : BlockHeader) (signature : Option Nat)
  | fin
deriving DecidableEq

/-- The body of the task spawned by MockDBExecutor.register_query.  The sink
is represented by the readiness oracle ready: the k-th call of poll_ready
returns Ok exactly when ready k is true (false models a closed sink; the
source then skips that send and keeps iterating).  On an Err entry the task
returns the error immediately via the question-mark operator, sending
nothing further and in particular no Fin.  The first component collects the
items actually written into the sink, in order. -/
def runQueryTask (ready : Nat → Bool) (query_id : Nat) :
    List (Except DBExecutorError BlockHeader) → Nat →
    List Data × Except DBExecutorError Nat
  | [], k =>
    ((if ready k then [Data.fin] else []), Except.ok query_id)
  | r :: rest, k =>
    match r with
    | Except.error e => ([], Except.error e)
    | Except.ok header =>
      let sent := if ready k then [Data.blockHeaderAndSignature header none] else []
      let out := runQueryTask ready query_id rest (k + 1)
      (sent ++ out.1, out.2)

/-- State of MockDBExecutor: the next fresh query id, the fixture map from
queries to stored per-header results (a total map into Option; none is an
absent key), and the set of spawned query executions, each recorded as the
items it wrote and its completion result as surfaced on the executor's
completion stream. -/
structure MockDBExecutor where
  next_query_id : Nat
  query_to_headers : BlockQuery → Option (List (Except DBExecutorError BlockHeader))
  query_execution_set : List (List Data × Except DBExecutorError Nat)

/-- MockDBExecutor.register_query: allocate the next query id, remove the
stored results for the query (the source unwraps here, so an unknown query
panics, rendered as none), spawn the task and record its execution.
Returns the updated executor and the allocated query id. -/
def MockDBExecutor.register_query (ex : MockDBExecutor) (query : BlockQuery)
    (ready : Nat → Bool) : Option (MockDBExecutor × Nat) :=
  match ex.query_to_headers query with
  | none => none
  | some headers =>
    let query_id := ex.next_query_id
    let out := runQueryTask ready query_id headers 0
    some
      ({ next_query_id := ex.next_query_id + 1,
         query_to_headers := fun q =>
           if q = query then none else ex.query_to_headers q,
         query_execution_set := ex.query_execution_set ++ [out] },
       query_id)

/-- The items written into the sink by the task registered for a query. -/
def MockDBExecutor.sentItems (ex : MockDBExecutor) (query : BlockQuery)
    (ready : Nat → Bool) : Option (List Data) :=
  (ex.query_to_headers query).map
    (fun headers => (runQueryTask ready ex.next_query_id headers 0).1)

/-- The completion result of the task registered for a query, as surfaced on
the executor's completion stream. -/
def MockDBExecutor.completion (ex : MockDBExecutor) (query : BlockQuery)
    (ready : Nat → Bool) : Option (Except DBExecutorError Nat) :=
  (ex.query_to_headers query).map
    (fun headers => (runQueryTask ready ex.next_query_id headers 0).2)

/-- An always-ready sink: back-pressure eventually clears and the sink is
never closed. -/
def alwaysReady : Nat → Bool := fun _ => true

/-- A task over stored results that are all Ok writes one header item per
result and then Fin, and completes with Ok of its query id. -/
theorem runQueryTask_all_ok (hs : List BlockHeader) : ∀ (k qid : Nat),
    runQueryTask alwaysReady qid (hs.map Except.ok) k
      = (hs.map (fun h => Data.blockHeaderAndSignature h none) ++ [Data.fin],
         Except.ok qid) := by
  induction hs with
  | nil => intro k qid; simp [runQueryTask, alwaysReady]
  | cons h hs ih => intro k qid; simp [runQueryTask, alwaysReady, ih]

/-- A task that hits an Err entry after a prefix of Ok entries writes exactly
the prefix header items, nothing further, no Fin, and completes with the
stored error. -/
theorem runQueryTask_error (hs : List BlockHeader) : ∀ (k qid : Nat)
    (e : DBExecutorError) (rest : List (Except DBExecutorError BlockHeader)),
    runQueryTask alwaysReady qid (hs.map Except.ok ++ Except.error e :: rest) k
      = (hs.map (fun h => Data.blockHeaderAndSignature h none),
         Except.error e) := by
  induction hs with
  | nil => intro k qid e rest; simp [runQueryTask, alwaysReady]
  | cons h hs ih => intro k qid e rest; simp [runQueryTask, alwaysReady, ih]

/-- C1: for a registered query whose stored results are the headers
h1 ... hn with no error, the spawned task writes into the sink exactly
BlockHeaderAndSignature(h1) ... BlockHeaderAndSignature(hn) followed by Fin
as the terminal item, in that order, and completes with Ok of the freshly
allocated query id. -/
theorem register_query_success (ex : MockDBExecutor) (query : BlockQuery)
    (hs : List BlockHeader)
    (hstore : ex.query_to_headers query = some (hs.map Except.ok)) :
    ∃ ex2, ex.register_query query alwaysReady = some (ex2, ex.next_query_id)
    ∧ ex.sentItems query alwaysReady
        = some (hs.map (fun h => Data.blockHeaderAndSignature h none)
            ++ [Data.fin])
    ∧ ex.completion query alwaysReady = some (Except.ok ex.next_query_id)
    ∧ ex2.next_query_id = ex.next_query_id + 1
    ∧ ex2.query_execution_set
        = ex.query_execution_set
          ++ [(hs.map (fun h => Data.blockHeaderAndSignature h none)
                ++ [Data.fin], Except.ok ex.next_query_id)] := by
  refine ⟨{ next_query_id := ex.next_query_id + 1,
            query_to_headers := fun q =>
              if q = query then none else ex.query_to_headers q,
            query_execution_set := ex.query_execution_set
              ++ [(hs.map (fun h => Data.blockHeaderAndSignature h none)
                    ++ [Data.fin], Except.ok ex.next_query_id)] },
    ?_, ?_, ?_, rfl, rfl⟩
  · simp only [MockDBExecutor.register_query, hstore, runQueryTask_all_ok]
  · simp [MockDBExecutor.sentItems, hstore, runQueryTask_all_ok]
  · simp [MockDBExecutor.completion, hstore, runQueryTask_all_ok]

/-- Witness for C1: a fresh executor storing two headers for one query. -/
theorem register_query_success_witness :
    ∃ ex2,
      MockDBExecutor.register_query
        { next_query_id := 0,
          query_to_headers := fun q =>
            if q = { start_block := BlockHashOrNumber.number 0,
                     direction := Direction.forward, limit := 2, step := 1 }
            then some [Except.ok ⟨0⟩, Except.ok ⟨1⟩] else none,
          query_execution_set := [] }
        { start_block := BlockHashOrNumber.number 0,
          direction := Direction.forward, limit := 2, step := 1 }
        alwaysReady = some (ex2, 0)
    ∧ MockDBExecutor.sentItems
        { next_query_id := 0,
          query_to_headers := fun q =>
            if q = { start_block := BlockHashOrNumber.number 0,
                     direction := Direction.forward, limit := 2, step := 1 }
            then some [Except.ok ⟨0⟩, Except.ok ⟨1⟩] else none,
          query_execution_set := [] }
        { start_block := BlockHashOrNumber.number 0,
          direction := Direction.forward, limit := 2, step := 1 }
        alwaysReady
        = some ([⟨0⟩, ⟨1⟩].map (fun h => Data.blockHeaderAndSignature h none)
            ++ [Data.fin])
    ∧ MockDBExecutor.completion
        { next_query_id := 0,
          query_to_headers := fun q =>
            if q = { start_block := BlockHashOrNumber.number 0,
                     direction := Direction.forward, limit := 2, step := 1 }
            then some [Except.ok ⟨0⟩, Except.ok ⟨1⟩] else none,
          query_execution_set := [] }
        { start_block := BlockHashOrNumber.number 0,
          direction := Direction.forward, limit := 2, step := 1 }
        alwaysReady = some (Except.ok 0)
    ∧ ex2.next_query_id = 0 + 1
    ∧ ex2.query_execution_set
        = []
          ++ [([⟨0⟩, ⟨1⟩].map (fun h => Data.blockHeaderAndSignature h none)
                ++ [Data.fin], Except.ok 0)] :=
  register_query_success _ _ [⟨0⟩, ⟨1⟩] (by simp)

/-- C3: when the stored results for a registered query hit a BlockNotFound
error tagged with the allocated query id after the headers h1 ... hk, the
task writes exactly those header items, stops there, writes no Fin, and the
error is reported on the executor's completion stream tagged with the
offending query id. -/
theorem register_query_block_not_found (ex : MockDBExecutor)
    (query : BlockQuery) (hs : List BlockHeader) (loc : BlockHashOrNumber)
    (rest : List (Except DBExecutorError BlockHeader))
    (hstore : ex.query_to_headers query
      = some (hs.map Except.ok
          ++ Except.error (DBExecutorError.blockNotFound loc ex.next_query_id)
            :: rest)) :
    ∃ ex2, ex.register_query query alwaysReady = some (ex2, ex.next_query_id)
    ∧ ex.sentItems query alwaysReady
        = some (hs.map (fun h => Data.blockHeaderAndSignature h none))
    ∧ Data.fin ∉ (ex.sentItems query alwaysReady).getD []
    ∧ ex.completion query alwaysReady
        = some (Except.error
            (DBExecutorError.blockNotFound loc ex.next_query_id))
    ∧ (DBExecutorError.blockNotFound loc ex.next_query_id).queryIdTag
        = ex.next_query_id := by
  refine ⟨{ next_query_id := ex.next_query_id + 1,
            query_to_headers := fun q =>
              if q = query then none else ex.query_to_headers q,
            query_execution_set := ex.query_execution_set
              ++ [(hs.map (fun h => Data.blockHeaderAndSignature h none),
                    Except.error (DBExecutorError.blockNotFound loc
                      ex.next_query_id))] },
    ?_, ?_, ?_, ?_, rfl⟩
  · simp only [MockDBExecutor.register_query, hstore, runQueryTask_error]
  · simp [MockDBExecutor.sentItems, hstore, runQueryTask_error]
  · simp [MockDBExecutor.sentItems, hstore, runQueryTask_error]
  · simp [MockDBExecutor.completion, hstore, runQueryTask_error]

/-- Witness for C3: one stored header then a BlockNotFound for block 1,
tagged with query id 0. -/
theorem register_query_block_not_found_witness :
    ∃ ex2,
      MockDBExecutor.register_query
        { next_query_id := 0,
          query_to_headers := fun q =>
            if q = { start_block := BlockHashOrNumber.number 0,
                     direction := Direction.forward, limit := 2, step := 1 }
            then some [Except.ok ⟨0⟩,
              Except.error
                (DBExecutorError.blockNotFound (BlockHashOrNumber.number 1) 0)]
            else none,
          query_execution_set := [] }
        { start_block := BlockHashOrNumber.number 0,
          direction := Direction.forward, limit := 2, step := 1 }
        alwaysReady = some (ex2, 0)
    ∧ MockDBExecutor.sentItems
        { next_query_id := 0,
          query_to_headers := fun q =>
            if q = { start_block := BlockHashOrNumber.number 0,
                     direction := Direction.forward, limit := 2, step := 1 }
            then some [Except.ok ⟨0⟩,
              Except.error
                (DBExecutorError.blockNotFound (BlockHashOrNumber.number 1) 0)]
            else none,
          query_execution_set := [] }
        { start_block := BlockHashOrNumber.number 0,
          direction := Direction.forward, limit := 2, step := 1 }
        alwaysReady
        = some ([⟨0⟩].map (fun h => Data.blockHeaderAndSignature h none))
    ∧ Data.fin ∉ (MockDBExecutor.sentItems
        { next_query_id := 0,
          query_to_headers := fun q =>
            if q = { start_block := BlockHashOrNumber.number 0,
                     direction := Direction.forward, limit := 2, step := 1 }
            then some [Except.ok ⟨0⟩,
              Except.error
                (DBExecutorError.blockNotFound (BlockHashOrNumber.number 1) 0)]
            else none,
          query_execution_set := [] }
        { start_block := BlockHashOrNumber.number 0,
          direction := Direction.forward, limit := 2, step := 1 }
        alwaysReady).getD []
    ∧ MockDBExecutor.completion
        { next_query_id := 0,
          query_to_headers := fun q =>
            if q = { start_block := BlockHashOrNumber.number 0,
                     direction := Direction.forward, limit := 2, step := 1 }
            then some [Except.ok ⟨0⟩,
              Except.error
                (DBExecutorError.blockNotFound (BlockHashOrNumber.number 1) 0)]
            else none,
          query_execution_set := [] }
        { start_block := BlockHashOrNumber.number 0,
          direction := Direction.forward, limit := 2, step := 1 }
        alwaysReady
        = some (Except.error
            (DBExecutorError.blockNotFound (BlockHashOrNumber.number 1) 0))
    ∧ (DBExecutorError.blockNotFound (BlockHashOrNumber.number 1) 0).queryIdTag
        = 0 :=
  register_query_block_not_found _ _ [⟨0⟩] (BlockHashOrNumber.number 1) []
    (by simp)

end DbExec

/-! papyrus_discovery: lib.rs -/

namespace PapyrusDiscovery

/-- Peers are identified by an opaque stable id; modelled as Nat. -/
abbrev PeerId := Nat

/-- A component of a multi-component network address: either a peer-id tag
or some other protocol component. -/
inductive Protocol where
  | p2p (peer : PeerId)
  | comp (tag : Nat)
deriving DecidableEq

/-- A multi-component network address, as its list of components. -/
abbrev Multiaddr := List Protocol

/-- Whether the last component of an address is a peer-id tag. -/
def isP2pLast (address : Multiaddr) : Bool :=
  match address.getLast? with
  | some (Protocol.p2p _) => true
  | _ => false

/-- The address transformation performed by handle_found_peer: pop the last
component when it is a peer-id tag, once. -/
def stripTrailingP2p (address : Multiaddr) : Multiaddr :=
  match address.getLast? with
  | some (Protocol.p2p _) => address.dropLast
  | _ => address

/-- Discovery configuration. -/
structure DiscoveryConfig where
  n_active_queries : Nat
  found_peers_limit : Option Nat
deriving DecidableEq

/-- Kademlia overlay events the discovery loop distinguishes.  RoutingUpdated
carries the first element of its Addresses list, which is what the source
reads from it. -/
inductive KademliaEvent where
  | outboundQueryProgressed (peers : List PeerId)
  | routingUpdated (peer : PeerId) (addresses_first : Multiaddr)
  | routablePeer (peer : PeerId) (address : Multiaddr)
  | pendingRoutablePeer (peer : PeerId) (address : Multiaddr)
  | otherKademlia
deriving DecidableEq

/-- Swarm events consumed by Discovery.poll_next. -/
inductive SwarmEventModel where
  | kademlia (e : KademliaEvent)
  | identifyReceived (peer_id : PeerId) (listen_addrs : List Multiaddr)
  | incomingConnection
  | otherSwarm
deriving DecidableEq

/-- State of the Discovery engine.  found_peers embeds the process-lifetime
HashSet of already surfaced peers; queries_issued counts the calls of
perform_closest_peer_query (each of which targets a random key).  The swarm
itself is external: its event stream is supplied to each poll as a list, and
the elapsed seconds since the last query are supplied as an oracle. -/
structure Discovery where
  discovery_config : DiscoveryConfig
  found_peers : List PeerId
  local_peer_id : PeerId
  global_peers_names : List (String × PeerId × Multiaddr)
  queries_issued : Nat

/-- The gate condition of the query-issuing block inside poll_next: the
local peer appears in global_peers_names under the name "5". -/
def Discovery.hasNameFive (d : Discovery) : Bool :=
  d.global_peers_names.any (fun t => t.2.1 == d.local_peer_id && t.1 == "5")

/-- Discovery.perform_closest_peer_query: start a closest-peers overlay
query towards a random key; in the embedding only the ghost counter of
issued queries is visible. -/
def Discovery.perform_closest_peer_query (d : Discovery) : Discovery :=
  { d with queries_issued := d.queries_issued + 1 }

/-- Discovery.handle_found_peer: if the peer was already surfaced do
nothing; otherwise record it in found_peers, strip a trailing peer-id tag
from the address and return the pair for emission. -/
def Discovery.handle_found_peer (d : Discovery) (found_peer : PeerId)
    (address : Multiaddr) : Option (PeerId × Multiaddr) × Discovery :=
  if d.found_peers.contains found_peer then (none, d)
  else
    (some (found_peer, stripTrailingP2p address),
     { d with found_peers := d.found_peers ++ [found_peer] })

/-- Outcome of one poll of the discovery stream. -/
inductive PollOut where
  | readySome (item : PeerId × Multiaddr)
  | readyNone
  | pending
deriving DecidableEq

/-- The inner event loop of Discovery.poll_next: consume swarm events until
one of the three routing events surfaces a not-yet-found peer (return it
together with the successor state and the remaining events), treating
identify, incoming-connection, query-progress and all other events as
emission-free; an exhausted event list is a pending swarm. -/
def Discovery.poll_loop (d : Discovery) :
    List SwarmEventModel → PollOut × Discovery × List SwarmEventModel
  | [] => (PollOut.pending, d, [])
  | e :: rest =>
    match e with
    | SwarmEventModel.kademlia (KademliaEvent.routingUpdated peer addr) =>
      match d.handle_found_peer peer addr with
      | (some item, d2) => (PollOut.readySome item, d2, rest)
      | (none, d2) => d2.poll_loop rest
    | SwarmEventModel.kademlia (KademliaEvent.routablePeer peer addr) =>
      match d.handle_found_peer peer addr with
      | (some item, d2) => (PollOut.readySome item, d2, rest)
      | (none, d2) => d2.poll_loop rest
    | SwarmEventModel.kademlia (KademliaEvent.pendingRoutablePeer peer addr) =>
      match d.handle_found_peer peer addr with
      | (some item, d2) => (PollOut.readySome item, d2, rest)
      | (none, d2) => d2.poll_loop rest
    | _ => d.poll_loop rest

/-- The query-issuing block at the top of Discovery.poll_next: issue a
closest-peers query only when more than five seconds elapsed since the last
query and the local peer is named "5" in global_peers_names. -/
def Discovery.queryGate (d : Discovery) (elapsed_secs : Nat) : Discovery :=
  if 5 < elapsed_secs && d.hasNameFive then d.perform_closest_peer_query
  else d

/-- The remainder of Discovery.poll_next after the query gate: the
found-peers-limit check returning end-of-stream once the limit is reached,
then the event loop. -/
def Discovery.limitAndLoop (d1 : Discovery)
    (events : List SwarmEventModel) :
    PollOut × Discovery × List SwarmEventModel :=
  match d1.discovery_config.found_peers_limit with
  | some lim =>
    if lim ≤ d1.found_peers.length then (PollOut.readyNone, d1, events)
    else d1.poll_loop events
  | none => d1.poll_loop events

/-- Discovery.poll_next: the query-issuing gate, then the limit check, then
the event loop. -/
def Discovery.poll_next (d : Discovery) (elapsed_secs : Nat)
    (events : List SwarmEventModel) :
    PollOut × Discovery × List SwarmEventModel :=
  (d.queryGate elapsed_secs).limitAndLoop events

/-- Drive the discovery stream: one poll per entry of the elapsed-seconds
list, threading the state and the unconsumed events, collecting the emitted
pairs, stopping at end-of-stream. -/
def runPolls : Discovery → List SwarmEventModel → List Nat →
    List (PeerId × Multiaddr) × Discovery × List SwarmEventModel
  | d, events, [] => ([], d, events)
  | d, events, el :: els =>
    match d.poll_next el events with
    | (PollOut.readySome item, d2, rest) =>
      let out := runPolls d2 rest els
      (item :: out.1, out.2)
    | (PollOut.readyNone, d2, rest) => ([], d2, rest)
    | (PollOut.pending, d2, rest) => runPolls d2 rest els

/-- The (peer, address) pairs carried by the routing events of an event
list, in order. -/
def kadPairs : List SwarmEventModel → List (PeerId × Multiaddr)
  | [] => []
  | SwarmEventModel.kademlia (KademliaEvent.routingUpdated p a) :: rest =>
    (p, a) :: kadPairs rest
  | SwarmEventModel.kademlia (KademliaEvent.routablePeer p a) :: rest =>
    (p, a) :: kadPairs rest
  | SwarmEventModel.kademlia (KademliaEvent.pendingRoutablePeer p a) :: rest =>
    (p, a) :: kadPairs rest
  | _ :: rest => kadPairs rest

/-- Everything one poll of the inner event loop guarantees: configuration
and query counter untouched; an emitted pair is a newly surfaced peer,
recorded in found_peers, whose address is the stripped address of one of the
routing events; a pending outcome leaves found_peers unchanged; the loop
never ends the stream; the unconsumed events carry no new routing pairs. -/
theorem poll_loop_spec (events : List SwarmEventModel) : ∀ d : Discovery,
    ((d.poll_loop events).2.1.discovery_config = d.discovery_config
      ∧ (d.poll_loop events).2.1.queries_issued = d.queries_issued)
    ∧ (∀ p a, (d.poll_loop events).1 = PollOut.readySome (p, a) →
        d.found_peers.contains p = false
        ∧ (d.poll_loop events).2.1.found_peers = d.found_peers ++ [p]
        ∧ ∃ pa, pa ∈ kadPairs events ∧ p = pa.1 ∧ a = stripTrailingP2p pa.2)
    ∧ ((d.poll_loop events).1 = PollOut.pending →
        (d.poll_loop events).2.1.found_peers = d.found_peers)
    ∧ (d.poll_loop events).1 ≠ PollOut.readyNone
    ∧ (∀ pa ∈ kadPairs (d.poll_loop events).2.2, pa ∈ kadPairs events) := by
  induction events with
  | nil =>
    intro d
    refine ⟨⟨rfl, rfl⟩, ?_, fun _ => rfl, by simp [Discovery.poll_loop],
      fun pa h => h⟩
    intro p a h
    simp [Discovery.poll_loop] at h
  | cons e rest ih =>
    intro d
    cases e with
    | kademlia ke =>
      cases ke with
      | routingUpdated p0 a0 =>
        by_cases hc : d.found_peers.contains p0 = true
        · have hmem : p0 ∈ d.found_peers := by simpa using hc
          have hred : d.poll_loop
              (SwarmEventModel.kademlia (KademliaEvent.routingUpdated p0 a0)
                :: rest) = d.poll_loop rest := by
            simp [Discovery.poll_loop, Discovery.handle_found_peer, hmem]
          rw [hred]
          obtain ⟨hcfg, hready, hpend, hne, hsub⟩ := ih d
          refine ⟨hcfg, ?_, hpend, hne, ?_⟩
          · intro p a h
            obtain ⟨h1, h2, pa, hpa, h3, h4⟩ := hready p a h
            exact ⟨h1, h2, pa, by simp [kadPairs, hpa], h3, h4⟩
          · intro pa h
            simp [kadPairs]
            exact Or.inr (hsub pa h)
        · have hc2 : d.found_peers.contains p0 = false := by
            simpa using hc
          have hmem : p0 ∉ d.found_peers := by simpa using hc
          have hred : d.poll_loop
              (SwarmEventModel.kademlia (KademliaEvent.routingUpdated p0 a0)
                :: rest)
              = (PollOut.readySome (p0, stripTrailingP2p a0),
                 { d with found_peers := d.found_peers ++ [p0] }, rest) := by
            simp [Discovery.poll_loop, Discovery.handle_found_peer, hmem]
          rw [hred]
          refine ⟨⟨rfl, rfl⟩, ?_, (by intro h; cases h), (by intro h; cases h), ?_⟩
          · intro p a h
            injection h with hpair
            injection hpair with hp ha
            subst hp
            subst ha
            exact ⟨hc2, rfl, (p0, a0), by simp [kadPairs], rfl, rfl⟩
          · intro pa h
            simp [kadPairs]
            exact Or.inr h
      | routablePeer p0 a0 =>
        by_cases hc : d.found_peers.contains p0 = true
        · have hmem : p0 ∈ d.found_peers := by simpa using hc
          have hred : d.poll_loop
              (SwarmEventModel.kademlia (KademliaEvent.routablePeer p0 a0)
                :: rest) = d.poll_loop rest := by
            simp [Discovery.poll_loop, Discovery.handle_found_peer, hmem]
          rw [hred]
          obtain ⟨hcfg, hready, hpend, hne, hsub⟩ := ih d
          refine ⟨hcfg, ?_, hpend, hne, ?_⟩
          · intro p a h
            obtain ⟨h1, h2, pa, hpa, h3, h4⟩ := hready p a h
            exact ⟨h1, h2, pa, by simp [kadPairs, hpa], h3, h4⟩
          · intro pa h
            simp [kadPairs]
            exact Or.inr (hsub pa h)
        · have hc2 : d.found_peers.contains p0 = false := by
            simpa using hc
          have hmem : p0 ∉ d.found_peers := by simpa using hc
          have hred : d.poll_loop
              (SwarmEventModel.kademlia (KademliaEvent.routablePeer p0 a0)
                :: rest)
              = (PollOut.readySome (p0, stripTrailingP2p a0),
                 { d with found_peers := d.found_peers ++ [p0] }, rest) := by
            simp [Discovery.poll_loop, Discovery.handle_found_peer, hmem]
          rw [hred]
          refine ⟨⟨rfl, rfl⟩, ?_, (by intro h; cases h), (by intro h; cases h), ?_⟩
          · intro p a h
            injection h with hpair
            injection hpair with hp ha
            subst hp
            subst ha
            exact ⟨hc2, rfl, (p0, a0), by simp [kadPairs], rfl, rfl⟩
          · intro pa h
            simp [kadPairs]
            exact Or.inr h
      | pendingRoutablePeer p0 a0 =>
        by_cases hc : d.found_peers.contains p0 = true
        · have hmem : p0 ∈ d.found_peers := by simpa using hc
          have hred : d.poll_loop
              (SwarmEventModel.kademlia
                (KademliaEvent.pendingRoutablePeer p0 a0) :: rest)
              = d.poll_loop rest := by
            simp [Discovery.poll_loop, Discovery.handle_found_peer, hmem]
          rw [hred]
          obtain ⟨hcfg, hready, hpend, hne, hsub⟩ := ih d
          refine ⟨hcfg, ?_, hpend, hne, ?_⟩
          · intro p a h
            obtain ⟨h1, h2, pa, hpa, h3, h4⟩ := hready p a h
            exact ⟨h1, h2, pa, by simp [kadPairs, hpa], h3, h4⟩
          · intro pa h
            simp [kadPairs]
            exact Or.inr (hsub pa h)
        · have hc2 : d.found_peers.contains p0 = false := by
            simpa using hc
          have hmem : p0 ∉ d.found_peers := by simpa using hc
          have hred : d.poll_loop
              (SwarmEventModel.kademlia
                (KademliaEvent.pendingRoutablePeer p0 a0) :: rest)
              = (PollOut.readySome (p0, stripTrailingP2p a0),
                 { d with found_peers := d.found_peers ++ [p0] }, rest) := by
            simp [Discovery.poll_loop, Discovery.handle_found_peer, hmem]
          rw [hred]
          refine ⟨⟨rfl, rfl⟩, ?_, (by intro h; cases h), (by intro h; cases h), ?_⟩
          · intro p a h
            injection h with hpair
            injection hpair with hp ha
            subst hp
            subst ha
            exact ⟨hc2, rfl, (p0, a0), by simp [kadPairs], rfl, rfl⟩
          · intro pa h
            simp [kadPairs]
            exact Or.inr h
      | outboundQueryProgressed ps =>
        have hred : d.poll_loop
            (SwarmEventModel.kademlia (KademliaEvent.outboundQueryProgressed ps)
              :: rest) = d.poll_loop rest := by
          simp [Discovery.poll_loop]
        rw [hred]
        obtain ⟨hcfg, hready, hpend, hne, hsub⟩ := ih d
        exact ⟨hcfg, hready, hpend, hne, hsub⟩
      | otherKademlia =>
        have hred : d.poll_loop
            (SwarmEventModel.kademlia KademliaEvent.otherKademlia :: rest)
            = d.poll_loop rest := by
          simp [Discovery.poll_loop]
        rw [hred]
        exact ih d
    | identifyReceived p0 addrs =>
      have hred : d.poll_loop
          (SwarmEventModel.identifyReceived p0 addrs :: rest)
          = d.poll_loop rest := by
        simp [Discovery.poll_loop]
      rw [hred]
      exact ih d
    | incomingConnection =>
      have hred : d.poll_loop (SwarmEventModel.incomingConnection :: rest)
          = d.poll_loop rest := by
        simp [Discovery.poll_loop]
      rw [hred]
      exact ih d
    | otherSwarm =>
      have hred : d.poll_loop (SwarmEventModel.otherSwarm :: rest)
          = d.poll_loop rest := by
        simp [Discovery.poll_loop]
      rw [hred]
      exact ih d


/-- The query gate touches only the ghost counter of issued queries. -/
theorem queryGate_state (d : Discovery) (el : Nat) :
    (d.queryGate el).discovery_config = d.discovery_config
    ∧ (d.queryGate el).found_peers = d.found_peers
    ∧ (d.queryGate el).queries_issued
        = d.queries_issued + (if 5 < el && d.hasNameFive then 1 else 0) := by
  unfold Discovery.queryGate Discovery.perform_closest_peer_query
  by_cases hg : (5 < el && d.hasNameFive) = true
  · simp [hg]
  · simp only [Bool.not_eq_true] at hg
    simp [hg]

/-- Everything one call of Discovery.poll_next guarantees: the
configuration is untouched; the query counter increases exactly when the
gate fires; an emitted pair is a newly surfaced peer, recorded in
found_peers, whose address is the stripped address of one of the supplied
routing events; non-emitting outcomes leave found_peers unchanged; the
unconsumed events carry no new routing pairs. -/
theorem poll_next_spec (d : Discovery) (el : Nat)
    (events : List SwarmEventModel) :
    (d.poll_next el events).2.1.discovery_config = d.discovery_config
    ∧ (d.poll_next el events).2.1.queries_issued
        = d.queries_issued + (if 5 < el && d.hasNameFive then 1 else 0)
    ∧ (∀ p a, (d.poll_next el events).1 = PollOut.readySome (p, a) →
        d.found_peers.contains p = false
        ∧ (d.poll_next el events).2.1.found_peers = d.found_peers ++ [p]
        ∧ ∃ pa, pa ∈ kadPairs events ∧ p = pa.1 ∧ a = stripTrailingP2p pa.2)
    ∧ ((d.poll_next el events).1 = PollOut.pending →
        (d.poll_next el events).2.1.found_peers = d.found_peers)
    ∧ ((d.poll_next el events).1 = PollOut.readyNone →
        (d.poll_next el events).2.1.found_peers = d.found_peers)
    ∧ (∀ pa ∈ kadPairs (d.poll_next el events).2.2, pa ∈ kadPairs events) := by
  obtain ⟨hgc, hgf, hgq⟩ := queryGate_state d el
  obtain ⟨⟨hlc, hlq⟩, hready, hpend, hne, hsub⟩ :=
    poll_loop_spec events (d.queryGate el)
  unfold Discovery.poll_next Discovery.limitAndLoop
  cases hlim : (d.queryGate el).discovery_config.found_peers_limit with
  | some lim =>
    by_cases hle : lim ≤ (d.queryGate el).found_peers.length
    · simp only [hle, if_true]
      refine ⟨hgc, hgq, ?_, ?_, fun _ => hgf, fun pa h => h⟩
      · intro p a h
        cases h
      · intro h
        cases h
    · simp only [hle, if_false]
      refine ⟨hlc.trans hgc, hlq.trans hgq, ?_, ?_, ?_, hsub⟩
      · intro p a h
        obtain ⟨h1, h2, pa, hpa, h3, h4⟩ := hready p a h
        rw [hgf] at h1
        rw [hgf] at h2
        exact ⟨h1, h2, pa, hpa, h3, h4⟩
      · intro h
        rw [hpend h, hgf]
      · intro h
        exact absurd h hne
  | none =>
    refine ⟨hlc.trans hgc, hlq.trans hgq, ?_, ?_, ?_, hsub⟩
    · intro p a h
      obtain ⟨h1, h2, pa, hpa, h3, h4⟩ := hready p a h
      rw [hgf] at h1
      rw [hgf] at h2
      exact ⟨h1, h2, pa, hpa, h3, h4⟩
    · intro h
      rw [hpend h, hgf]
    · intro h
      exact absurd h hne

/-- Once the found-peers limit is reached, every poll returns end-of-stream
and leaves found_peers (hence the limit condition) in place. -/
theorem poll_next_at_limit (d : Discovery) (el : Nat)
    (events : List SwarmEventModel) (lim : Nat)
    (h1 : d.discovery_config.found_peers_limit = some lim)
    (h2 : lim ≤ d.found_peers.length) :
    (d.poll_next el events).1 = PollOut.readyNone
    ∧ (d.poll_next el events).2.1.found_peers = d.found_peers
    ∧ (d.poll_next el events).2.1.discovery_config = d.discovery_config := by
  obtain ⟨hgc, hgf, _⟩ := queryGate_state d el
  have h1g : (d.queryGate el).discovery_config.found_peers_limit = some lim := by
    rw [hgc, h1]
  have h2g : lim ≤ (d.queryGate el).found_peers.length := by
    rw [hgf]; exact h2
  unfold Discovery.poll_next Discovery.limitAndLoop
  simp only [h1g, h2g, if_true]
  exact ⟨trivial, hgf, hgc⟩


/-- The discovery state built by Discovery.new: no peer surfaced yet, no
query issued yet. -/
def initDiscovery (cfg : DiscoveryConfig) (lpid : PeerId)
    (names : List (String × PeerId × Multiaddr)) : Discovery :=
  { discovery_config := cfg, found_peers := [], local_peer_id := lpid,
    global_peers_names := names, queries_issued := 0 }

/-- Driving the stream for any number of polls: found_peers grows by exactly
the emitted peers; every emitted peer was unknown at the start; no peer is
emitted twice; every emitted address is the stripped address of one of the
supplied routing events. -/
theorem runPolls_spec (els : List Nat) : ∀ (d : Discovery)
    (events : List SwarmEventModel),
    (runPolls d events els).2.1.found_peers
      = d.found_peers ++ ((runPolls d events els).1).map Prod.fst
    ∧ (∀ q ∈ ((runPolls d events els).1).map Prod.fst, q ∉ d.found_peers)
    ∧ (((runPolls d events els).1).map Prod.fst).Nodup
    ∧ (∀ item ∈ (runPolls d events els).1,
        ∃ pa, pa ∈ kadPairs events ∧ item.1 = pa.1
          ∧ item.2 = stripTrailingP2p pa.2) := by
  induction els with
  | nil =>
    intro d events
    refine ⟨by simp [runPolls], ?_, by simp [runPolls], ?_⟩
    · intro q hq
      simp [runPolls] at hq
    · intro item hitem
      simp [runPolls] at hitem
  | cons el els ih =>
    intro d events
    obtain ⟨hcfg, hqi, hready, hpend, hnone, hsub⟩ := poll_next_spec d el events
    rcases hp : d.poll_next el events with ⟨out, d2, rest⟩
    rw [hp] at hready hpend hnone hsub
    cases out with
    | readySome item =>
      obtain ⟨p, a⟩ := item
      obtain ⟨h1, h2, pa0, hpa0, h3, h4⟩ := hready p a rfl
      have h1m : p ∉ d.found_peers := by simpa using h1
      obtain ⟨ihf, ihfresh, ihnodup, ihprov⟩ := ih d2 rest
      have hrun : runPolls d events (el :: els)
          = ((p, a) :: (runPolls d2 rest els).1,
             (runPolls d2 rest els).2) := by
        simp [runPolls, hp]
      rw [hrun]
      simp only [List.map_cons]
      refine ⟨?_, ?_, ?_, ?_⟩
      · show (runPolls d2 rest els).2.1.found_peers = _
        rw [ihf, h2]
        simp
      · intro q hq
        rcases List.mem_cons.mp hq with hq | hq
        · subst hq; exact h1m
        · have := ihfresh q hq
          rw [h2] at this
          intro hmem
          exact this (List.mem_append_left _ hmem)
      · refine List.nodup_cons.mpr ⟨?_, ihnodup⟩
        intro hmem
        have := ihfresh p hmem
        rw [h2] at this
        exact this (List.mem_append_right _ (List.mem_singleton.mpr rfl))
      · intro item hitem
        rcases List.mem_cons.mp hitem with hit | hit
        · subst hit
          exact ⟨pa0, hpa0, h3, h4⟩
        · obtain ⟨pa, hpa, hh3, hh4⟩ := ihprov item hit
          exact ⟨pa, hsub pa hpa, hh3, hh4⟩
    | readyNone =>
      have hfd : d2.found_peers = d.found_peers := hnone rfl
      have hrun : runPolls d events (el :: els) = ([], d2, rest) := by
        simp [runPolls, hp]
      rw [hrun]
      refine ⟨by simp [hfd], ?_, by simp, ?_⟩
      · intro q hq
        simp at hq
      · intro item hitem
        simp at hitem
    | pending =>
      have hfd : d2.found_peers = d.found_peers := hpend rfl
      obtain ⟨ihf, ihfresh, ihnodup, ihprov⟩ := ih d2 rest
      have hrun : runPolls d events (el :: els) = runPolls d2 rest els := by
        simp [runPolls, hp]
      rw [hrun]
      refine ⟨by rw [ihf, hfd], ?_, ihnodup, ?_⟩
      · intro q hq
        have := ihfresh q hq
        rw [hfd] at this
        exact this
      · intro item hitem
        obtain ⟨pa, hpa, hh3, hh4⟩ := ihprov item hitem
        exact ⟨pa, hsub pa hpa, hh3, hh4⟩

/-- C6: over any sequence of swarm events and any schedule of polls, the
discovery stream started from a fresh state never emits the same PeerId
twice. -/
theorem discovery_no_duplicate_peer_emissions (cfg : DiscoveryConfig)
    (lpid : PeerId) (names : List (String × PeerId × Multiaddr))
    (events : List SwarmEventModel) (els : List Nat) :
    (((runPolls (initDiscovery cfg lpid names) events els).1).map
        Prod.fst).Nodup :=
  (runPolls_spec els (initDiscovery cfg lpid names) events).2.2.1

/-- C7 (amended): on each poll, the engine issues a fresh closest-peers
query (targeted at a random key) exactly when more than five seconds have
elapsed since the last issued query and the local peer is listed under the
name "5" in global_peers_names; the n_active_queries configuration is never
consulted. -/
theorem poll_next_queries_issued (d : Discovery) (el : Nat)
    (events : List SwarmEventModel) :
    (d.poll_next el events).2.1.queries_issued
      = d.queries_issued + (if 5 < el && d.hasNameFive then 1 else 0) :=
  (poll_next_spec d el events).2.1

/-- Counterexample to C7 as stated: a fresh discovery state with
n_active_queries = 1 and no query outstanding (none was ever issued) polls
without issuing a closest-peers query, because the local peer carries no
name "5" entry. -/
theorem discovery_query_gate_counterexample :
    (initDiscovery { n_active_queries := 1, found_peers_limit := none } 0
        []).queries_issued = 0
    ∧ 0 < (initDiscovery { n_active_queries := 1, found_peers_limit := none }
        0 []).discovery_config.n_active_queries
    ∧ ((initDiscovery { n_active_queries := 1, found_peers_limit := none } 0
        []).poll_next 10 []).2.1.queries_issued = 0 := by
  refine ⟨rfl, by decide, rfl⟩

/-- C9 (amended): provided no address carried by the routing events ends in
two consecutive peer-id components, every address emitted by the discovery
stream has a last component that is not a peer-id tag (the single trailing
peer-id component having been stripped before emission). -/
theorem discovery_emitted_addresses_stripped (d : Discovery)
    (events : List SwarmEventModel) (els : List Nat)
    (hgood : ∀ pa ∈ kadPairs events,
      isP2pLast (stripTrailingP2p pa.2) = false) :
    ∀ item ∈ (runPolls d events els).1, isP2pLast item.2 = false := by
  intro item hitem
  obtain ⟨pa, hpa, _, h2⟩ := (runPolls_spec els d events).2.2.2 item hitem
  rw [h2]
  exact hgood pa hpa

/-- Witness for amended C9: one routing event whose address ends in exactly
one peer-id tag. -/
theorem discovery_emitted_addresses_stripped_witness :
    (∀ pa ∈ kadPairs [SwarmEventModel.kademlia (KademliaEvent.routablePeer 7
        [Protocol.comp 0, Protocol.p2p 1])],
      isP2pLast (stripTrailingP2p pa.2) = false)
    ∧ ∀ item ∈ (runPolls
        (initDiscovery { n_active_queries := 1, found_peers_limit := none }
          0 [])
        [SwarmEventModel.kademlia (KademliaEvent.routablePeer 7
          [Protocol.comp 0, Protocol.p2p 1])] [0]).1,
      isP2pLast item.2 = false :=
  ⟨by decide,
   discovery_emitted_addresses_stripped _ _ [0] (by decide)⟩

/-- Counterexample to C9 as stated: an address received with two trailing
peer-id components is emitted still ending in a peer-id tag, because
handle_found_peer pops at most one component. -/
theorem discovery_address_strip_counterexample :
    (runPolls
        (initDiscovery { n_active_queries := 1, found_peers_limit := none }
          0 [])
        [SwarmEventModel.kademlia (KademliaEvent.routablePeer 7
          [Protocol.comp 0, Protocol.p2p 1, Protocol.p2p 2])] [0]).1
      = [(7, [Protocol.comp 0, Protocol.p2p 1])]
    ∧ isP2pLast [Protocol.comp 0, Protocol.p2p 1] = true := by
  refine ⟨by decide, rfl⟩


/-- Once the limit is reached, continued driving of the stream emits
nothing, whatever events arrive. -/
theorem runPolls_at_limit (d : Discovery) (lim : Nat)
    (h1 : d.discovery_config.found_peers_limit = some lim)
    (h2 : lim ≤ d.found_peers.length) :
    ∀ (els : List Nat) (events : List SwarmEventModel),
    (runPolls d events els).1 = [] := by
  intro els events
  cases els with
  | nil => rfl
  | cons el els =>
    rcases hp : d.poll_next el events with ⟨out, d2, rest⟩
    have hat := poll_next_at_limit d el events lim h1 h2
    rw [hp] at hat
    have hout : out = PollOut.readyNone := hat.1
    subst hout
    simp [runPolls, hp]

/-- The routing events feeding one fresh peer each, all at one address. -/
def routableEvents (ps : List PeerId) (addr : Multiaddr) :
    List SwarmEventModel :=
  ps.map (fun p => SwarmEventModel.kademlia (KademliaEvent.routablePeer p addr))

/-- Driving a discovery whose limit leaves room for exactly k more peers,
with at least k fresh distinct peers on offer and k+1 polls: the first k
polls emit one stripped pair each, the last poll hits the limit; the final
state sits exactly at the limit with its configuration intact. -/
theorem runPolls_limit_exact (k : Nat) : ∀ (d : Discovery) (ps : List PeerId)
    (addr : Multiaddr) (lim : Nat),
    d.discovery_config.found_peers_limit = some lim →
    d.found_peers.length + k = lim →
    k ≤ ps.length → ps.Nodup → (∀ p ∈ ps, p ∉ d.found_peers) →
    (runPolls d (routableEvents ps addr) (List.replicate (k + 1) 0)).1
        = (ps.take k).map (fun p => (p, stripTrailingP2p addr))
    ∧ (runPolls d (routableEvents ps addr)
        (List.replicate (k + 1) 0)).2.1.found_peers.length = lim
    ∧ (runPolls d (routableEvents ps addr)
        (List.replicate (k + 1) 0)).2.1.discovery_config
        = d.discovery_config := by
  induction k with
  | zero =>
    intro d ps addr lim hcfg hlen _ _ _
    have hat := poll_next_at_limit d 0 (routableEvents ps addr) lim hcfg
      (by omega)
    rcases hp : d.poll_next 0 (routableEvents ps addr) with ⟨out, d2, rest⟩
    rw [hp] at hat
    have hout : out = PollOut.readyNone := hat.1
    subst hout
    have hrun : runPolls d (routableEvents ps addr) (List.replicate 1 0)
        = ([], d2, rest) := by
      simp [runPolls, hp]
    rw [hrun]
    refine ⟨by simp, ?_, hat.2.2⟩
    show d2.found_peers.length = lim
    rw [hat.2.1]
    omega
  | succ k ih =>
    intro d ps addr lim hcfg hlen hk hnodup hfresh
    cases ps with
    | nil =>
      exact absurd hk (by simp)
    | cons p ps2 =>
      have hgate : d.queryGate 0 = d := by
        unfold Discovery.queryGate
        simp
      have hunder : ¬ lim ≤ d.found_peers.length := by omega
      have hmem : p ∉ d.found_peers := hfresh p (List.mem_cons_self p ps2)
      have hpoll : d.poll_next 0 (routableEvents (p :: ps2) addr)
          = (PollOut.readySome (p, stripTrailingP2p addr),
             { d with found_peers := d.found_peers ++ [p] },
             routableEvents ps2 addr) := by
        unfold Discovery.poll_next
        rw [hgate]
        unfold Discovery.limitAndLoop
        simp only [hcfg, hunder, if_false]
        show d.poll_loop (SwarmEventModel.kademlia
          (KademliaEvent.routablePeer p addr) :: routableEvents ps2 addr) = _
        simp [Discovery.poll_loop, Discovery.handle_found_peer, hmem]
      have hrep : List.replicate (k + 1 + 1) 0 = 0 :: List.replicate (k + 1) 0 :=
        rfl
      have hrun : runPolls d (routableEvents (p :: ps2) addr)
          (List.replicate (k + 1 + 1) 0)
          = ((p, stripTrailingP2p addr)
              :: (runPolls { d with found_peers := d.found_peers ++ [p] }
                  (routableEvents ps2 addr) (List.replicate (k + 1) 0)).1,
             (runPolls { d with found_peers := d.found_peers ++ [p] }
                (routableEvents ps2 addr) (List.replicate (k + 1) 0)).2) := by
        rw [hrep]
        simp [runPolls, hpoll]
      obtain ⟨ihem, ihlen, ihcfg⟩ := ih
        { d with found_peers := d.found_peers ++ [p] } ps2 addr lim hcfg
        (by simp; omega) (by simpa using hk) (List.nodup_cons.mp hnodup).2
        (by
          intro q hq
          have hqd := hfresh q (List.mem_cons_of_mem p hq)
          have hqp : q ≠ p := by
            intro hqp
            exact (List.nodup_cons.mp hnodup).1 (hqp ▸ hq)
          simp [hqd, hqp])
      rw [hrun]
      refine ⟨?_, ihlen, ihcfg⟩
      rw [ihem]
      simp


/-- C8: with found_peers_limit set to k and at least k distinct fresh peers
arriving, the discovery stream emits exactly the first k (peer, stripped
address) pairs, returns end-of-stream on the next poll, and stays at
end-of-stream (emitting nothing) on every poll thereafter. -/
theorem found_peers_limit_exact_stream (k : Nat) (ps : List PeerId)
    (addr : Multiaddr) (nq : Nat) (lpid : PeerId)
    (names : List (String × PeerId × Multiaddr))
    (hnodup : ps.Nodup) (hk : k ≤ ps.length) :
    (runPolls (initDiscovery
        { n_active_queries := nq, found_peers_limit := some k } lpid names)
        (routableEvents ps addr) (List.replicate (k + 1) 0)).1
      = (ps.take k).map (fun p => (p, stripTrailingP2p addr))
    ∧ (∀ (el : Nat) (evs : List SwarmEventModel),
        ((runPolls (initDiscovery
            { n_active_queries := nq, found_peers_limit := some k } lpid
            names) (routableEvents ps addr)
            (List.replicate (k + 1) 0)).2.1.poll_next el evs).1
          = PollOut.readyNone)
    ∧ (∀ (els2 : List Nat) (evs2 : List SwarmEventModel),
        (runPolls (runPolls (initDiscovery
            { n_active_queries := nq, found_peers_limit := some k } lpid
            names) (routableEvents ps addr)
            (List.replicate (k + 1) 0)).2.1 evs2 els2).1 = []) := by
  obtain ⟨hem, hlen, hcfg⟩ := runPolls_limit_exact k
    (initDiscovery { n_active_queries := nq, found_peers_limit := some k }
      lpid names) ps addr k rfl (by simp [initDiscovery]) hk hnodup
    (by intro q hq; simp [initDiscovery])
  have hlim : (runPolls (initDiscovery
      { n_active_queries := nq, found_peers_limit := some k } lpid names)
      (routableEvents ps addr)
      (List.replicate (k + 1) 0)).2.1.discovery_config.found_peers_limit
      = some k := by
    rw [hcfg]
    rfl
  refine ⟨hem, ?_, ?_⟩
  · intro el evs
    exact (poll_next_at_limit _ el evs k hlim (le_of_eq hlen.symm)).1
  · intro els2 evs2
    exact runPolls_at_limit _ k hlim (le_of_eq hlen.symm) els2 evs2

/-- Witness for C8: limit 2, three fresh distinct peers on offer. -/
theorem found_peers_limit_exact_stream_witness :
    (runPolls (initDiscovery
        { n_active_queries := 1, found_peers_limit := some 2 } 0 [])
        (routableEvents [3, 4, 5] [Protocol.comp 0])
        (List.replicate 3 0)).1
      = ([3, 4, 5].take 2).map
          (fun p => (p, stripTrailingP2p [Protocol.comp 0]))
    ∧ ((runPolls (initDiscovery
        { n_active_queries := 1, found_peers_limit := some 2 } 0 [])
        (routableEvents [3, 4, 5] [Protocol.comp 0])
        (List.replicate 3 0)).2.1.poll_next 0 []).1 = PollOut.readyNone :=
  ⟨(found_peers_limit_exact_stream 2 [3, 4, 5] [Protocol.comp 0] 1 0 []
      (by decide) (by decide)).1,
   (found_peers_limit_exact_stream 2 [3, 4, 5] [Protocol.comp 0] 1 0 []
      (by decide) (by decide)).2.1 0 []⟩

end PapyrusDiscovery
